import Mathlib

/-!
Verification of the placement sampler, scene bridges, interaction bridge,
world manager and renderer initialization of the `effective-physics`
repository, against its natural-language specification.

The physics/graphics values are JavaScript numbers; we model them as real
numbers (`ℝ`) where the code computes with `Math.cos`/`Math.sin`/`Math.sqrt`
(the placement sampler), and as rationals (`ℚ`) for the purely algebraic
bridge code, so that concrete runs can be decided.
-/

namespace EffectivePhysics

open Classical

/-- A 2D point `{x, y}` as produced by the placement sampler
(`src/ts/shared.ts`). -/
structure Vec2 where
  x : ℝ
  y : ℝ

/-- The distance computation of `_findValidSandPosition`
(`src/ts/shared.ts`, lines 254-258): `dx = xPos - p.x`, `dy = yPos - p.y`,
`Math.sqrt(dx*dx + dy*dy)`. -/
noncomputable def pointDist (a b : Vec2) : ℝ :=
  Real.sqrt ((a.x - b.x) * (a.x - b.x) + (a.y - b.y) * (a.y - b.y))

/-- The candidate point drawn in one attempt of `_findValidSandPosition`
(`src/ts/shared.ts`, lines 248-251): `angle = Math.random() * 2 * Math.PI`,
`r = Math.random() * radius`, `xPos = center.x + r * Math.cos(angle)`,
`yPos = center.y + r * Math.sin(angle)`.  The two `Math.random()` results
are draws `rand ctr` and `rand (ctr + 1)` of the random stream. -/
noncomputable def candPoint (rand : ℕ → ℝ) (center : Vec2) (radius : ℝ)
    (ctr : ℕ) : Vec2 :=
  let angle := rand ctr * (2 * Real.pi)
  let r := rand (ctr + 1) * radius
  ⟨center.x + r * Real.cos angle, center.y + r * Real.sin angle⟩

/-- The rejection test of `_findValidSandPosition` (`src/ts/shared.ts`,
lines 253-261): the candidate is `tooClose` when some already accepted
position is at distance `< particleRadius * 2`. -/
def tooClose (positions : List Vec2) (q : Vec2) (particleRadius : ℝ) : Prop :=
  ∃ p ∈ positions, pointDist q p < particleRadius * 2

/-- `PhysicsUtils._findValidSandPosition` (`src/ts/shared.ts`, lines
240-270).  The attempt loop `for (attempt = 0; attempt < maxAttempts; ...)`
is recursion on the number of attempts left; each attempt consumes the two
random draws at `ctr`, `ctr + 1`.  Returns the accepted position (the
caller appends it to `positions`, mirroring the `positions.push`) or
`none` when all attempts fail, together with the next stream index. -/
noncomputable def findValidSandPosition (rand : ℕ → ℝ)
    (positions : List Vec2) (center : Vec2) (radius particleRadius : ℝ) :
    ℕ → ℕ → Option Vec2 × ℕ
  | ctr, 0 => (none, ctr)
  | ctr, attemptsLeft + 1 =>
    if tooClose positions (candPoint rand center radius ctr) particleRadius then
      findValidSandPosition rand positions center radius particleRadius
        (ctr + 2) attemptsLeft
    else
      (some (candPoint rand center radius ctr), ctr + 2)

/-- The particle loop of `PhysicsUtils.dropSand` (`src/ts/shared.ts`,
lines 197-225), restricted to the placement set it accumulates: for each
of `count` particles it asks `_findValidSandPosition` for a position, and
`continue`s when the answer is `null`.  The accepted position is appended
(the source pushes it inside `_findValidSandPosition`). -/
noncomputable def dropSandLoop (rand : ℕ → ℝ) (center : Vec2)
    (radius particleRadius : ℝ) (maxAttempts : ℕ) :
    ℕ → List Vec2 → ℕ → List Vec2 × ℕ
  | 0, positions, ctr => (positions, ctr)
  | count + 1, positions, ctr =>
    match findValidSandPosition rand positions center radius particleRadius
        ctr maxAttempts with
    | (none, ctr') =>
      dropSandLoop rand center radius particleRadius maxAttempts count
        positions ctr'
    | (some p, ctr') =>
      dropSandLoop rand center radius particleRadius maxAttempts count
        (positions ++ [p]) ctr'

/-- The placement set generated by a `dropSand`-style run: `count`
particles requested with retry budget `maxAttempts`, starting from an
empty position list and the start of the random stream. -/
noncomputable def sandPositions (rand : ℕ → ℝ) (center : Vec2)
    (radius particleRadius : ℝ) (maxAttempts count : ℕ) : List Vec2 :=
  (dropSandLoop rand center radius particleRadius maxAttempts count [] 0).1

/-- The plane point of a `Vec2`, used to inherit the triangle inequality
for the distance the code computes. -/
noncomputable def toE2 (a : Vec2) : EuclideanSpace ℝ (Fin 2) := ![a.x, a.y]

theorem pointDist_eq_dist (a b : Vec2) :
    pointDist a b = dist (toE2 a) (toE2 b) := by
  rw [pointDist, EuclideanSpace.dist_eq]
  congr 1
  simp [toE2, Fin.sum_univ_two, Real.dist_eq, sq_abs]
  ring

theorem pointDist_comm (a b : Vec2) : pointDist a b = pointDist b a := by
  simp only [pointDist_eq_dist]
  exact dist_comm _ _

theorem pointDist_triangle (a b c : Vec2) :
    pointDist a c ≤ pointDist a b + pointDist b c := by
  simp only [pointDist_eq_dist]
  exact dist_triangle _ _ _

/-- A candidate drawn with a radius draw in `[0, 1)` lies within `radius`
of the cluster center: its distance to the center is exactly
`rand (ctr + 1) * radius`. -/
theorem candPoint_dist_center (rand : ℕ → ℝ) (center : Vec2) (radius : ℝ)
    (ctr : ℕ) (h0 : 0 ≤ rand (ctr + 1)) (h1 : rand (ctr + 1) < 1)
    (hr : 0 ≤ radius) :
    pointDist (candPoint rand center radius ctr) center ≤ radius := by
  have hsc := Real.sin_sq_add_cos_sq (rand ctr * (2 * Real.pi))
  have hu : 0 ≤ rand (ctr + 1) * radius := mul_nonneg h0 hr
  have key : pointDist (candPoint rand center radius ctr) center
      = rand (ctr + 1) * radius := by
    rw [pointDist, candPoint]
    have h2 : (center.x + rand (ctr + 1) * radius
          * Real.cos (rand ctr * (2 * Real.pi)) - center.x)
        * (center.x + rand (ctr + 1) * radius
          * Real.cos (rand ctr * (2 * Real.pi)) - center.x)
        + (center.y + rand (ctr + 1) * radius
          * Real.sin (rand ctr * (2 * Real.pi)) - center.y)
        * (center.y + rand (ctr + 1) * radius
          * Real.sin (rand ctr * (2 * Real.pi)) - center.y)
        = (rand (ctr + 1) * radius) ^ 2 := by
      linear_combination (rand (ctr + 1) * radius) ^ 2 * hsc
    rw [h2, Real.sqrt_sq hu]
  rw [key]
  calc rand (ctr + 1) * radius ≤ 1 * radius :=
        mul_le_mul_of_nonneg_right h1.le hr
    _ = radius := one_mul radius

/-- Specification of `_findValidSandPosition` when it returns a position:
the position is at distance at least `particleRadius * 2` from every
already accepted position, and it is a polar draw from the stream. -/
theorem findValidSandPosition_some (rand : ℕ → ℝ) (positions : List Vec2)
    (center : Vec2) (radius particleRadius : ℝ) (fuel : ℕ) :
    ∀ (ctr : ℕ) (p : Vec2) (ctr2 : ℕ),
      findValidSandPosition rand positions center radius particleRadius
          ctr fuel = (some p, ctr2) →
      (∀ q ∈ positions, particleRadius * 2 ≤ pointDist p q) ∧
        ∃ c, p = candPoint rand center radius c := by
  induction fuel with
  | zero =>
    intro ctr p ctr2 h
    simp [findValidSandPosition] at h
  | succ fuel ih =>
    intro ctr p ctr2 h
    rw [findValidSandPosition] at h
    by_cases htc :
        tooClose positions (candPoint rand center radius ctr) particleRadius
    · rw [if_pos htc] at h
      exact ih _ _ _ h
    · rw [if_neg htc] at h
      obtain ⟨hp, -⟩ : candPoint rand center radius ctr = p ∧ ctr + 2 = ctr2 := by
        simpa [Prod.ext_iff] using h
      subst hp
      refine ⟨?_, ctr, rfl⟩
      intro q hq
      by_contra hlt
      exact htc ⟨q, hq, not_le.mp hlt⟩

/-- Invariant of the accumulated placement set: every point is a polar
draw from the stream, and distinct points are at least
`particleRadius * 2` apart. -/
def SandInv (rand : ℕ → ℝ) (center : Vec2) (radius particleRadius : ℝ)
    (L : List Vec2) : Prop :=
  (∀ p ∈ L, ∃ c, p = candPoint rand center radius c) ∧
    L.Pairwise fun p q => particleRadius * 2 ≤ pointDist p q

theorem dropSandLoop_inv (rand : ℕ → ℝ) (center : Vec2)
    (radius particleRadius : ℝ) (maxAttempts : ℕ) :
    ∀ (count : ℕ) (positions : List Vec2) (ctr : ℕ),
      SandInv rand center radius particleRadius positions →
      SandInv rand center radius particleRadius
        (dropSandLoop rand center radius particleRadius maxAttempts
          count positions ctr).1 := by
  intro count
  induction count with
  | zero =>
    intro positions ctr h
    simpa [dropSandLoop] using h
  | succ count ih =>
    intro positions ctr h
    rw [dropSandLoop]
    rcases hfv : findValidSandPosition rand positions center radius
        particleRadius ctr maxAttempts with ⟨res, ctr'⟩
    cases res with
    | none => exact ih _ _ h
    | some p =>
      obtain ⟨hfar, hc⟩ :=
        findValidSandPosition_some rand positions center radius particleRadius
          maxAttempts ctr p ctr' hfv
      refine ih _ _ ⟨?_, ?_⟩
      · intro q hq
        rcases List.mem_append.mp hq with hq | hq
        · exact h.1 q hq
        · rw [List.mem_singleton.mp hq]
          exact hc
      · refine List.pairwise_append.mpr ⟨h.2, List.pairwise_singleton _ _, ?_⟩
        intro a ha b hb
        rw [List.mem_singleton.mp hb, pointDist_comm]
        exact hfar a ha

theorem dropSandLoop_length (rand : ℕ → ℝ) (center : Vec2)
    (radius particleRadius : ℝ) (maxAttempts : ℕ) :
    ∀ (count : ℕ) (positions : List Vec2) (ctr : ℕ),
      (dropSandLoop rand center radius particleRadius maxAttempts
        count positions ctr).1.length ≤ positions.length + count := by
  intro count
  induction count with
  | zero =>
    intro positions ctr
    simp [dropSandLoop]
  | succ count ih =>
    intro positions ctr
    rw [dropSandLoop]
    rcases hfv : findValidSandPosition rand positions center radius
        particleRadius ctr maxAttempts with ⟨res, ctr'⟩
    cases res with
    | none => exact (ih positions ctr').trans (by omega)
    | some p =>
      have h2 := ih (positions ++ [p]) ctr'
      rw [List.length_append, List.length_singleton] at h2
      exact le_trans h2 (by omega)

theorem sandPositions_inv (rand : ℕ → ℝ) (center : Vec2)
    (radius particleRadius : ℝ) (maxAttempts count : ℕ) :
    SandInv rand center radius particleRadius
      (sandPositions rand center radius particleRadius maxAttempts count) :=
  dropSandLoop_inv rand center radius particleRadius maxAttempts count [] 0
    ⟨by simp, List.Pairwise.nil⟩

/-- Runtime model of `_findValidSandPosition` as actually shipped.
`dropSand` in `src/ts/shared.ts` passes `Constants.SAND.GRAIN_SIZE` as
`particleRadius`, but `src/ts/constants.ts` (lines 41-45) defines only
`SAND.GRAIN_SIZE_MIN` and `SAND.GRAIN_SIZE_MAX` — there is no
`GRAIN_SIZE` property.  At run time `particleRadius` is `undefined`,
`particleRadius * 2` is `NaN`, and the JavaScript comparison
`Math.sqrt(dx*dx + dy*dy) < NaN` is false for every candidate, so the
overlap test never rejects anything: the first attempt is always
accepted.  The `False` condition below encodes that always-false
comparison. -/
noncomputable def findValidSandPositionShipped (rand : ℕ → ℝ)
    (positions : List Vec2) (center : Vec2) (radius : ℝ) :
    ℕ → ℕ → Option Vec2 × ℕ
  | ctr, 0 => (none, ctr)
  | ctr, attemptsLeft + 1 =>
    if False then
      findValidSandPositionShipped rand positions center radius
        (ctr + 2) attemptsLeft
    else
      (some (candPoint rand center radius ctr), ctr + 2)

/-- The particle loop of the shipped `dropSand`, accumulating positions
through `findValidSandPositionShipped`. -/
noncomputable def dropSandLoopShipped (rand : ℕ → ℝ) (center : Vec2)
    (radius : ℝ) (maxAttempts : ℕ) : ℕ → List Vec2 → ℕ → List Vec2 × ℕ
  | 0, positions, ctr => (positions, ctr)
  | count + 1, positions, ctr =>
    match findValidSandPositionShipped rand positions center radius
        ctr maxAttempts with
    | (none, ctr') =>
      dropSandLoopShipped rand center radius maxAttempts count positions ctr'
    | (some p, ctr') =>
      dropSandLoopShipped rand center radius maxAttempts count
        (positions ++ [p]) ctr'

/-- The placement set of the shipped `dropSand` call
(`src/ts/shared.ts`, lines 188-226): cluster center
`(canvas.width / 2, 100)`, cluster radius `80`, `500` particles
requested, retry budget `300`, with the runtime-`undefined` particle
radius. -/
noncomputable def dropSandShippedPositions (rand : ℕ → ℝ)
    (canvasWidth : ℝ) : List Vec2 :=
  (dropSandLoopShipped rand ⟨canvasWidth / 2, 100⟩ 80 300 500 [] 0).1

theorem pointDist_self (a : Vec2) : pointDist a a = 0 := by
  simp [pointDist]

theorem candPoint_zero_stream (center : Vec2) (radius : ℝ) (c : ℕ) :
    candPoint (fun _ => 0) center radius c = center := by
  simp [candPoint]

theorem dropSandLoopShipped_zero_stream (center : Vec2) (radius : ℝ)
    (ma : ℕ) :
    ∀ (count : ℕ) (positions : List Vec2) (ctr : ℕ),
      (dropSandLoopShipped (fun _ => 0) center radius (ma + 1)
        count positions ctr).1 = positions ++ List.replicate count center := by
  intro count
  induction count with
  | zero =>
    intro positions ctr
    simp [dropSandLoopShipped]
  | succ count ih =>
    intro positions ctr
    rw [dropSandLoopShipped]
    have hfv : findValidSandPositionShipped (fun _ => 0) positions center
        radius ctr (ma + 1) = (some center, ctr + 2) := by
      rw [findValidSandPositionShipped, if_neg not_false,
        candPoint_zero_stream]
    rw [hfv]
    rw [ih (positions ++ [center]) (ctr + 2)]
    simp [List.replicate_succ]

/-- Claim C1: the placement set accumulated by a `dropSand`-style run of
`_findValidSandPosition` with particle radius `particleRadius` is pairwise
non-overlapping — any two positions at distinct indices are at distance at
least `particleRadius * 2` — for every random stream. -/
theorem dropSand_placements_never_overlap (rand : ℕ → ℝ) (center : Vec2)
    (radius particleRadius : ℝ) (maxAttempts count : ℕ)
    (i j : Fin (sandPositions rand center radius particleRadius maxAttempts
      count).length) (hij : i ≠ j) :
    particleRadius * 2 ≤
      pointDist
        ((sandPositions rand center radius particleRadius maxAttempts
          count).get i)
        ((sandPositions rand center radius particleRadius maxAttempts
          count).get j) := by
  have hp := (sandPositions_inv rand center radius particleRadius
    maxAttempts count).2
  rcases hij.lt_or_lt with h | h
  · exact List.pairwise_iff_get.mp hp i j h
  · rw [pointDist_comm]
    exact List.pairwise_iff_get.mp hp j i h

/-- Step equation for `findValidSandPosition` when the candidate passes
the rejection test. -/
theorem findValidSandPosition_accept (rand : ℕ → ℝ) (positions : List Vec2)
    (center : Vec2) (radius particleRadius : ℝ) (ctr fuel : ℕ)
    (h : ¬ tooClose positions (candPoint rand center radius ctr)
      particleRadius) :
    findValidSandPosition rand positions center radius particleRadius
      ctr (fuel + 1) = (some (candPoint rand center radius ctr), ctr + 2) := by
  rw [findValidSandPosition, if_neg h]

/-- Step equation for `dropSandLoop` when the position search succeeds. -/
theorem dropSandLoop_step_some (rand : ℕ → ℝ) (center : Vec2)
    (radius particleRadius : ℝ) (maxAttempts count : ℕ)
    (positions : List Vec2) (ctr : ℕ) (p : Vec2) (ctr' : ℕ)
    (h : findValidSandPosition rand positions center radius particleRadius
      ctr maxAttempts = (some p, ctr')) :
    dropSandLoop rand center radius particleRadius maxAttempts (count + 1)
        positions ctr =
      dropSandLoop rand center radius particleRadius maxAttempts count
        (positions ++ [p]) ctr' := by
  rw [dropSandLoop, h]

/-- Claim C1 witness: a concrete two-particle run.  With the stream that
draws angle fraction `0` and radius fractions `0` then `1/2`, a cluster of
radius `80` at the origin and particle radius `2`, the sampler accepts
`(0, 0)` and then `(40, 0)`, which are `40 ≥ 4` apart. -/
theorem dropSand_placements_never_overlap_witness :
    (2 : ℝ) * 2 ≤ pointDist ⟨0, 0⟩ ⟨40, 0⟩ := by
  have hcand0 : candPoint (fun n => if n = 3 then 1 / 2 else 0)
      ⟨0, 0⟩ 80 0 = ⟨0, 0⟩ := by
    simp [candPoint]
  have hcand1 : candPoint (fun n => if n = 3 then 1 / 2 else 0)
      ⟨0, 0⟩ 80 2 = ⟨40, 0⟩ := by
    simp only [candPoint]
    norm_num [Real.cos_zero, Real.sin_zero]
  have hd : pointDist ⟨40, 0⟩ ⟨0, 0⟩ = 40 := by
    have h1600 : ((40 : ℝ) - 0) * (40 - 0) + (0 - 0) * (0 - 0) = 40 ^ 2 := by
      norm_num
    rw [pointDist]
    rw [show ((⟨40, 0⟩ : Vec2).x - (⟨0, 0⟩ : Vec2).x)
          * ((⟨40, 0⟩ : Vec2).x - (⟨0, 0⟩ : Vec2).x)
          + ((⟨40, 0⟩ : Vec2).y - (⟨0, 0⟩ : Vec2).y)
          * ((⟨40, 0⟩ : Vec2).y - (⟨0, 0⟩ : Vec2).y) = 40 ^ 2 from h1600]
    exact Real.sqrt_sq (by norm_num)
  have e1 : findValidSandPosition (fun n => if n = 3 then 1 / 2 else 0) []
      ⟨0, 0⟩ 80 2 0 1 = (some ⟨0, 0⟩, 2) := by
    have h := findValidSandPosition_accept
      (fun n => if n = 3 then 1 / 2 else 0) [] ⟨0, 0⟩ 80 2 0 0
      (by rintro ⟨p, hp, -⟩; exact absurd hp (List.not_mem_nil p))
    rw [hcand0] at h
    exact h
  have e2 : findValidSandPosition (fun n => if n = 3 then 1 / 2 else 0)
      [⟨0, 0⟩] ⟨0, 0⟩ 80 2 2 1 = (some ⟨40, 0⟩, 4) := by
    have h := findValidSandPosition_accept
      (fun n => if n = 3 then 1 / 2 else 0) [⟨0, 0⟩] ⟨0, 0⟩ 80 2 2 0
      (by
        rw [hcand1]
        rintro ⟨p, hp, hlt⟩
        rw [List.mem_singleton.mp hp, hd] at hlt
        norm_num at hlt)
    rw [hcand1] at h
    exact h
  have heval : sandPositions (fun n => if n = 3 then 1 / 2 else 0)
      ⟨0, 0⟩ 80 2 1 2 = [⟨0, 0⟩, ⟨40, 0⟩] := by
    calc sandPositions (fun n => if n = 3 then 1 / 2 else 0) ⟨0, 0⟩ 80 2 1 2
        = (dropSandLoop (fun n => if n = 3 then 1 / 2 else 0) ⟨0, 0⟩ 80 2 1 1
            ([] ++ [⟨0, 0⟩]) 2).1 :=
          congrArg Prod.fst (dropSandLoop_step_some
            (fun n => if n = 3 then 1 / 2 else 0) ⟨0, 0⟩ 80 2 1 1 [] 0
            ⟨0, 0⟩ 2 e1)
      _ = (dropSandLoop (fun n => if n = 3 then 1 / 2 else 0) ⟨0, 0⟩ 80 2 1 0
            ([⟨0, 0⟩] ++ [⟨40, 0⟩]) 4).1 :=
          congrArg Prod.fst (dropSandLoop_step_some
            (fun n => if n = 3 then 1 / 2 else 0) ⟨0, 0⟩ 80 2 1 0 [⟨0, 0⟩] 2
            ⟨40, 0⟩ 4 e2)
      _ = [⟨0, 0⟩, ⟨40, 0⟩] := rfl
  have hlen : (sandPositions (fun n => if n = 3 then 1 / 2 else 0)
      ⟨0, 0⟩ 80 2 1 2).length = 2 := by rw [heval]; rfl
  have hlen0 : 0 < (sandPositions (fun n => if n = 3 then 1 / 2 else 0)
      ⟨0, 0⟩ 80 2 1 2).length := by omega
  have hlen1 : 1 < (sandPositions (fun n => if n = 3 then 1 / 2 else 0)
      ⟨0, 0⟩ 80 2 1 2).length := by omega
  have g0 : (sandPositions (fun n => if n = 3 then 1 / 2 else 0)
      ⟨0, 0⟩ 80 2 1 2).get ⟨0, hlen0⟩ = ⟨0, 0⟩ := by
    revert hlen0
    rw [heval]
    intro _
    rfl
  have g1 : (sandPositions (fun n => if n = 3 then 1 / 2 else 0)
      ⟨0, 0⟩ 80 2 1 2).get ⟨1, hlen1⟩ = ⟨40, 0⟩ := by
    revert hlen0 hlen1
    rw [heval]
    intros
    rfl
  have hmain := dropSand_placements_never_overlap
    (fun n => if n = 3 then 1 / 2 else 0) ⟨0, 0⟩ 80 2 1 2
    ⟨0, hlen0⟩ ⟨1, hlen1⟩ (by simp [Fin.ext_iff])
  rw [g0, g1] at hmain
  exact hmain

/-- Claim C5: every accepted position lies within distance `radius` of
the cluster center, for every random stream that draws in `[0, 1)`. -/
theorem dropSand_placements_within_radius (rand : ℕ → ℝ) (center : Vec2)
    (radius particleRadius : ℝ) (maxAttempts count : ℕ)
    (hrand : ∀ n, 0 ≤ rand n ∧ rand n < 1) (hradius : 0 ≤ radius) :
    ∀ p ∈ sandPositions rand center radius particleRadius maxAttempts count,
      pointDist p center ≤ radius := by
  intro p hp
  obtain ⟨c, rfl⟩ := (sandPositions_inv rand center radius particleRadius
    maxAttempts count).1 p hp
  exact candPoint_dist_center rand center radius c (hrand (c + 1)).1
    (hrand (c + 1)).2 hradius

/-- Claim C5 witness: with the all-zeros stream and one requested
particle, the sampler accepts exactly the cluster center, and the
containment bound holds there. -/
theorem dropSand_placements_within_radius_witness :
    pointDist ⟨0, 0⟩ ⟨0, 0⟩ ≤ 80 := by
  have e1 : findValidSandPosition (fun _ => 0) [] ⟨0, 0⟩ 80 2 0 1
      = (some ⟨0, 0⟩, 2) := by
    have h := findValidSandPosition_accept (fun _ => 0) [] ⟨0, 0⟩ 80 2 0 0
      (by rintro ⟨p, hp, -⟩; exact absurd hp (List.not_mem_nil p))
    rw [candPoint_zero_stream] at h
    exact h
  have heval : sandPositions (fun _ => 0) ⟨0, 0⟩ 80 2 1 1 = [⟨0, 0⟩] := by
    calc sandPositions (fun _ => 0) ⟨0, 0⟩ 80 2 1 1
        = (dropSandLoop (fun _ => 0) ⟨0, 0⟩ 80 2 1 0 [(⟨0, 0⟩ : Vec2)] 2).1 :=
          congrArg Prod.fst
            (dropSandLoop_step_some (fun _ => 0) ⟨0, 0⟩ 80 2 1 0 [] 0
              ⟨0, 0⟩ 2 e1)
      _ = [⟨0, 0⟩] := rfl
  have h := dropSand_placements_within_radius (fun _ => 0) ⟨0, 0⟩ 80 2 1 1
    (fun n => by norm_num) (by norm_num)
  exact h ⟨0, 0⟩ (by rw [heval]; exact List.mem_singleton_self _)

/-- Claim C7: the sampler is total and best-effort: it returns at most
`count` positions for every stream; and when the disk is too small to
hold two non-overlapping particles (`radius < particleRadius`, so any two
in-disk points are closer than `2 * particleRadius`) while at least two
are requested, it returns strictly fewer than requested — particles whose
attempts are exhausted are silently dropped. -/
theorem dropSand_best_effort (rand : ℕ → ℝ) (center : Vec2)
    (radius particleRadius : ℝ) (maxAttempts count : ℕ)
    (hrand : ∀ n, 0 ≤ rand n ∧ rand n < 1) (hradius : 0 ≤ radius) :
    (sandPositions rand center radius particleRadius maxAttempts
        count).length ≤ count ∧
      (radius < particleRadius → 2 ≤ count →
        (sandPositions rand center radius particleRadius maxAttempts
          count).length < count) := by
  have hlen := dropSandLoop_length rand center radius particleRadius
    maxAttempts count [] 0
  simp only [List.length_nil, Nat.zero_add] at hlen
  refine ⟨hlen, ?_⟩
  intro hsmall hcount
  have hinv := sandPositions_inv rand center radius particleRadius
    maxAttempts count
  have hle1 : (sandPositions rand center radius particleRadius maxAttempts
      count).length ≤ 1 := by
    rcases hL : sandPositions rand center radius particleRadius maxAttempts
        count with - | ⟨p, L'⟩
    · simp
    rcases L' with - | ⟨q, L''⟩
    · simp
    exfalso
    rw [hL] at hinv
    have hfar : particleRadius * 2 ≤ pointDist p q :=
      (List.pairwise_cons.mp hinv.2).1 q (by simp)
    obtain ⟨cp, hcp⟩ := hinv.1 p (by simp)
    obtain ⟨cq, hcq⟩ := hinv.1 q (by simp)
    have hpc : pointDist p center ≤ radius := by
      rw [hcp]
      exact candPoint_dist_center _ _ _ _ (hrand _).1 (hrand _).2 hradius
    have hqc : pointDist q center ≤ radius := by
      rw [hcq]
      exact candPoint_dist_center _ _ _ _ (hrand _).1 (hrand _).2 hradius
    have htri := pointDist_triangle p center q
    rw [pointDist_comm center q] at htri
    linarith
  omega

/-- Claim C7 witness: a disk of radius `1` with particle radius `2` and
two requested particles returns at most two and strictly fewer than two
positions. -/
theorem dropSand_best_effort_witness :
    (sandPositions (fun _ => 0) ⟨0, 0⟩ 1 2 1 2).length ≤ 2 ∧
      (sandPositions (fun _ => 0) ⟨0, 0⟩ 1 2 1 2).length < 2 := by
  have h := dropSand_best_effort (fun _ => 0) ⟨0, 0⟩ 1 2 1 2
    (fun n => by norm_num) (by norm_num)
  exact ⟨h.1, h.2 (by norm_num) (by norm_num)⟩

/-- Claim C4 (code bug): under the shipped configuration — canvas width
`640`, so cluster center `(320, 100)`, cluster radius `80`, `500`
particles, retry budget `300`, and `particleRadius =
Constants.SAND.GRAIN_SIZE`, which does not exist in `src/ts/constants.ts`
and is `undefined` at run time — the overlap test compares against `NaN`
and never rejects, so the loop places exactly `500` particles, not fewer,
and enforces no separation: with the all-zeros stream every particle
lands on the cluster center itself, at pairwise distance `0 < 4`. -/
theorem dropSand_shipped_config_code_bug :
    (dropSandShippedPositions (fun _ => 0) 640).length = 500 ∧
      (∀ p ∈ dropSandShippedPositions (fun _ => 0) 640, p = ⟨320, 100⟩) ∧
      pointDist ⟨320, 100⟩ ⟨320, 100⟩ < 2 * 2 := by
  have h : dropSandShippedPositions (fun _ => 0) 640
      = List.replicate 500 ⟨320, 100⟩ := by
    rw [dropSandShippedPositions]
    rw [show (640 : ℝ) / 2 = 320 by norm_num]
    calc (dropSandLoopShipped (fun _ => 0) ⟨320, 100⟩ 80 300 500 [] 0).1
        = [] ++ List.replicate 500 ⟨320, 100⟩ :=
          dropSandLoopShipped_zero_stream ⟨320, 100⟩ 80 299 500 [] 0
      _ = List.replicate 500 ⟨320, 100⟩ := List.nil_append _
  refine ⟨by rw [h, List.length_replicate], ?_, ?_⟩
  · intro p hp
    rw [h] at hp
    exact List.eq_of_mem_replicate hp
  · rw [pointDist_self]
    norm_num

/-- Snapshot of a Matter.js body as read by the renderers each frame:
identity, 2D position, rotation angle, optional circle radius, vertex
list. -/
structure BodySnapshot where
  id : ℕ
  px : ℚ
  py : ℚ
  angle : ℚ
  circleRadius : Option ℚ
  vertices : List (ℚ × ℚ)
deriving DecidableEq

/-- The transform written onto a mesh: position `(x, y, z)` and
rotation about the Z axis. -/
structure MeshTransform where
  posX : ℚ
  posY : ℚ
  posZ : ℚ
  rotZ : ℚ
deriving DecidableEq

/-- The transform written by the TypeScript 3D bridge per frame
(`src/ts/renderer-webgl.ts`, lines 177-178):
`mesh.position.set(body.position.x, body.position.y, 0)` and
`mesh.rotation.z = body.angle`. -/
def tsMeshTransform (body : BodySnapshot) : MeshTransform :=
  { posX := body.px, posY := body.py, posZ := 0, rotZ := body.angle }

/-- The transform written by the JavaScript 3D bridge per frame
(`src/js/canvas-manager.js`, lines 558-573): in orthographic mode
`(x - width/2, height/2 - y, 0)`, otherwise `(x, height - y, 0)`, and
`mesh.rotation.z = -body.angle` in both modes. -/
def jsMeshTransform (usesOrthographicCamera : Bool)
    (canvasWidth canvasHeight : ℚ) (body : BodySnapshot) : MeshTransform :=
  if usesOrthographicCamera then
    { posX := body.px - canvasWidth / 2, posY := canvasHeight / 2 - body.py,
      posZ := 0, rotZ := -body.angle }
  else
    { posX := body.px, posY := canvasHeight - body.py, posZ := 0,
      rotZ := -body.angle }

/-- Modelled from the spec: the transform the specification says the
per-frame sync writes in centered/orthographic mode — `render X =
physicsX - canvasWidth/2`, `render Y = canvasHeight/2 - physicsY`,
`Z = 0`, and `render Z rotation = -(physics angle)`. -/
def specCenteredTransform (canvasWidth canvasHeight : ℚ)
    (body : BodySnapshot) : MeshTransform :=
  { posX := body.px - canvasWidth / 2, posY := canvasHeight / 2 - body.py,
    posZ := 0, rotZ := -body.angle }

/-- A renderable mesh owned by the 3D bridge: a graphics resource
identity plus its current transform. -/
structure SceneMesh where
  mid : ℕ
  transform : MeshTransform
deriving DecidableEq

/-- State of the TypeScript 3D bridge across `updateScene` calls: the
body-id to mesh cache (`this.bodies`), the scene contents (mesh resource
ids), the next fresh resource id, and the log of disposed resources
(geometry/material released). -/
structure RendererState where
  cache : List (ℕ × SceneMesh)
  scene : List ℕ
  nextMeshId : ℕ
  disposed : List ℕ
deriving DecidableEq

/-- The lookup `this.bodies.get(id)`. -/
def cacheGet : List (ℕ × SceneMesh) → ℕ → Option SceneMesh
  | [], _ => none
  | (k, m) :: rest, i => if k = i then some m else cacheGet rest i

/-- `createMeshForBody` (`src/ts/renderer-webgl.ts`, lines 333-381):
builds a circle mesh when `body.circleRadius` is truthy (present and
nonzero), else a polygon mesh when the body has more than two vertices
(the polygon branch offsets `position.z = -1`), else returns
`undefined`. -/
def createMeshForBody (nextId : ℕ) (body : BodySnapshot) :
    Option SceneMesh :=
  if body.circleRadius.getD 0 ≠ 0 then
    some { mid := nextId,
           transform := { posX := 0, posY := 0, posZ := 0, rotZ := 0 } }
  else if 2 < body.vertices.length then
    some { mid := nextId,
           transform := { posX := 0, posY := 0, posZ := -1, rotZ := 0 } }
  else
    none

/-- A body for which `createMeshForBody` produces a mesh. -/
def buildable (body : BodySnapshot) : Bool :=
  (createMeshForBody 0 body).isSome

/-- One iteration of the first `forEach` of `updateScene`
(`src/ts/renderer-webgl.ts`, lines 162-180): get or create the mesh for
the body, then write the body's position and rotation onto it. -/
def syncBody (st : RendererState) (body : BodySnapshot) : RendererState :=
  match cacheGet st.cache body.id with
  | some _ =>
    { st with
      cache := st.cache.map fun e =>
        if e.1 = body.id then
          (e.1, { e.2 with transform := tsMeshTransform body })
        else e }
  | none =>
    match createMeshForBody st.nextMeshId body with
    | some m =>
      { st with
        scene := st.scene ++ [m.mid],
        cache := st.cache
          ++ [(body.id, { m with transform := tsMeshTransform body })],
        nextMeshId := st.nextMeshId + 1 }
    | none => st

/-- One iteration of the second `forEach` of `updateScene`
(`src/ts/renderer-webgl.ts`, lines 183-194): a cache entry whose body id
is not among the current ids has its mesh removed from the scene, its
geometry and material disposed, and its entry deleted from the cache. -/
def removeStaleEntry (bodyIds : List ℕ) (st : RendererState)
    (e : ℕ × SceneMesh) : RendererState :=
  if e.1 ∈ bodyIds then st
  else
    { st with
      scene := st.scene.erase e.2.mid,
      disposed := st.disposed ++ [e.2.mid],
      cache := st.cache.filter fun e2 => e2.1 != e.1 }

/-- `updateScene` (`src/ts/renderer-webgl.ts`, lines 155-195): the first
pass adds meshes for new bodies and updates transforms, the second pass
removes cache entries whose bodies no longer exist. -/
def updateScene (bodies : List BodySnapshot) (st : RendererState) :
    RendererState :=
  let st1 := bodies.foldl syncBody st
  st1.cache.foldl (removeStaleEntry (bodies.map fun b => b.id)) st1

/-- The concrete body used in claim C2's failing input: physics position
`(320, 240)` (the center of the `640 × 480` canvas), angle `1`,
a circle of radius `10`. -/
def bodyC2 : BodySnapshot :=
  { id := 1, px := 320, py := 240, angle := 1, circleRadius := some 10,
    vertices := [] }

/-- Claim C2 (code bug): the shipped TypeScript `updateScene` writes the
raw physics position and the unnegated angle onto the mesh, not the
centered/Y-flipped/negated transform the specification states.  The
JavaScript bridge it was ported from does write exactly the specified
transform in orthographic mode.  At the failing input — a body at
physics `(320, 240)` with angle `1` on the `640 × 480` canvas — a fresh
sync writes position `(320, 240, 0)` and rotation `1`, while the
specified transform is `(0, 0, 0)` with rotation `-1`. -/
theorem updateScene_transform_code_bug :
    (∀ w h body, jsMeshTransform true w h body
      = specCenteredTransform w h body) ∧
      (updateScene [bodyC2] ⟨[], [], 0, []⟩).cache
        = [(1, ⟨0, { posX := 320, posY := 240, posZ := 0, rotZ := 1 }⟩)] ∧
      specCenteredTransform 640 480 bodyC2
        = { posX := 0, posY := 0, posZ := 0, rotZ := -1 } ∧
      tsMeshTransform bodyC2 ≠ specCenteredTransform 640 480 bodyC2 := by
  refine ⟨?_, rfl,
    by norm_num [specCenteredTransform, bodyC2, MeshTransform.mk.injEq],
    by norm_num [tsMeshTransform, specCenteredTransform, bodyC2,
      MeshTransform.mk.injEq]⟩
  intro w h body
  rw [jsMeshTransform, if_pos rfl, specCenteredTransform]

/-- Keys of the mesh cache. -/
def cacheKeys (cache : List (ℕ × SceneMesh)) : List ℕ :=
  cache.map fun e => e.1

/-- Well-formedness of the bridge state: distinct cache keys, distinct
scene resources, and every known resource id below the fresh counter. -/
def RendererWF (st : RendererState) : Prop :=
  (cacheKeys st.cache).Nodup ∧ st.scene.Nodup ∧
    (∀ e ∈ st.cache, e.2.mid < st.nextMeshId) ∧
    ∀ i ∈ st.scene, i < st.nextMeshId

theorem cacheGet_none_iff (cache : List (ℕ × SceneMesh)) (i : ℕ) :
    cacheGet cache i = none ↔ i ∉ cacheKeys cache := by
  induction cache with
  | nil => simp [cacheGet, cacheKeys]
  | cons e rest ih =>
    rcases e with ⟨k, m⟩
    by_cases hk : k = i
    · subst hk
      simp [cacheGet, cacheKeys]
    · rw [cacheGet, if_neg hk, ih]
      simp only [cacheKeys, List.map_cons, List.mem_cons, not_or]
      constructor
      · intro h
        exact ⟨fun hik => hk hik.symm, h⟩
      · intro h
        exact h.2

theorem createMeshForBody_of_buildable (n : ℕ) (b : BodySnapshot)
    (h : buildable b = true) : ∃ t, createMeshForBody n b = some ⟨n, t⟩ := by
  by_cases h1 : b.circleRadius.getD 0 ≠ 0
  · exact ⟨_, by rw [createMeshForBody, if_pos h1]⟩
  · by_cases h2 : 2 < b.vertices.length
    · exact ⟨_, by rw [createMeshForBody, if_neg h1, if_pos h2]⟩
    · exfalso
      rw [buildable, createMeshForBody, if_neg h1, if_neg h2] at h
      simp at h

theorem createMeshForBody_mid (n : ℕ) (b : BodySnapshot) (m : SceneMesh)
    (h : createMeshForBody n b = some m) : m.mid = n := by
  rw [createMeshForBody] at h
  split_ifs at h with h1 h2
  · obtain rfl := (Option.some.injEq _ _).mp h
    rfl
  · obtain rfl := (Option.some.injEq _ _).mp h
    rfl

theorem syncBody_preserves_other (st : RendererState) (b : BodySnapshot)
    (e : ℕ × SceneMesh) (he : e ∈ st.cache) (hne : e.1 ≠ b.id) :
    e ∈ (syncBody st b).cache := by
  rw [syncBody]
  cases hget : cacheGet st.cache b.id with
  | some m =>
    refine List.mem_map.mpr ⟨e, he, ?_⟩
    rw [if_neg hne]
  | none =>
    cases hcr : createMeshForBody st.nextMeshId b with
    | some m => exact List.mem_append_left _ he
    | none => exact he

theorem syncBody_mem_of_ne (st : RendererState) (b : BodySnapshot)
    (e : ℕ × SceneMesh) (he : e ∈ (syncBody st b).cache) (hne : e.1 ≠ b.id) :
    e ∈ st.cache := by
  rw [syncBody] at he
  cases hget : cacheGet st.cache b.id with
  | some m =>
    rw [hget] at he
    obtain ⟨a, ha, hfa⟩ := List.mem_map.mp he
    by_cases hab : a.1 = b.id
    · rw [if_pos hab] at hfa
      exact absurd (hfa ▸ hab) hne
    · rw [if_neg hab] at hfa
      exact hfa ▸ ha
  | none =>
    rw [hget] at he
    cases hcr : createMeshForBody st.nextMeshId b with
    | some m =>
      rw [hcr] at he
      rcases List.mem_append.mp he with h | h
      · exact h
      · rw [List.mem_singleton.mp h] at hne
        exact absurd rfl hne
    | none =>
      rw [hcr] at he
      exact he

theorem syncBody_nextMeshId_le (st : RendererState) (b : BodySnapshot) :
    st.nextMeshId ≤ (syncBody st b).nextMeshId := by
  rw [syncBody]
  cases cacheGet st.cache b.id with
  | some m => exact le_refl _
  | none =>
    cases createMeshForBody st.nextMeshId b with
    | some m => exact Nat.le_succ _
    | none => exact le_refl _

theorem syncBody_scene_mem (st : RendererState) (b : BodySnapshot) (x : ℕ)
    (hx : x ∈ st.scene) : x ∈ (syncBody st b).scene := by
  rw [syncBody]
  cases cacheGet st.cache b.id with
  | some m => exact hx
  | none =>
    cases createMeshForBody st.nextMeshId b with
    | some m => exact List.mem_append_left _ hx
    | none => exact hx

theorem syncBody_keys_subset (st : RendererState) (b : BodySnapshot) :
    cacheKeys (syncBody st b).cache ⊆ cacheKeys st.cache ++ [b.id] := by
  intro k hk
  obtain ⟨e, he, rfl⟩ := List.mem_map.mp hk
  by_cases hke : e.1 = b.id
  · exact List.mem_append_right _ (List.mem_singleton.mpr hke)
  · exact List.mem_append_left _
      (List.mem_map.mpr ⟨e, syncBody_mem_of_ne st b e he hke, rfl⟩)

theorem syncBody_wf (st : RendererState) (b : BodySnapshot)
    (hwf : RendererWF st) : RendererWF (syncBody st b) := by
  obtain ⟨hkeys, hscene, hmid, hsid⟩ := hwf
  rw [syncBody]
  cases hget : cacheGet st.cache b.id with
  | some m =>
    refine ⟨?_, hscene, ?_, hsid⟩
    · have : cacheKeys (st.cache.map fun e =>
          if e.1 = b.id then (e.1, { e.2 with transform := tsMeshTransform b })
          else e) = cacheKeys st.cache := by
        rw [cacheKeys, cacheKeys, List.map_map]
        refine List.map_congr_left fun e he => ?_
        by_cases hke : e.1 = b.id
        · rw [Function.comp_apply, if_pos hke]
        · rw [Function.comp_apply, if_neg hke]
      rw [this]
      exact hkeys
    · intro e he
      obtain ⟨a, ha, hfa⟩ := List.mem_map.mp he
      by_cases hab : a.1 = b.id
      · rw [if_pos hab] at hfa
        rw [← hfa]
        exact hmid a ha
      · rw [if_neg hab] at hfa
        exact hfa ▸ hmid a ha
  | none =>
    cases hcr : createMeshForBody st.nextMeshId b with
    | some m =>
      have hmidm : m.mid = st.nextMeshId := createMeshForBody_mid _ _ _ hcr
      refine ⟨?_, ?_, ?_, ?_⟩
      · rw [cacheKeys, List.map_append, List.nodup_append]
        refine ⟨hkeys, List.nodup_singleton _, ?_⟩
        intro k hk hk2
        rw [List.map_singleton, List.mem_singleton] at hk2
        subst hk2
        exact (cacheGet_none_iff st.cache b.id).mp hget hk
      · rw [List.nodup_append]
        refine ⟨hscene, List.nodup_singleton _, ?_⟩
        intro k hk hk2
        rw [List.mem_singleton] at hk2
        subst hk2
        rw [hmidm] at hk
        exact lt_irrefl _ (hsid _ hk)
      · intro e he
        rcases List.mem_append.mp he with h | h
        · exact Nat.lt_succ_of_lt (hmid e h)
        · rw [List.mem_singleton.mp h]
          show m.mid < st.nextMeshId + 1
          rw [hmidm]
          exact Nat.lt_succ_self _
      · intro i hi
        rcases List.mem_append.mp hi with h | h
        · exact Nat.lt_succ_of_lt (hsid i h)
        · rw [List.mem_singleton.mp h, hmidm]
          exact Nat.lt_succ_self _
    | none => exact ⟨hkeys, hscene, hmid, hsid⟩

theorem foldl_syncBody_preserves_stale (bodies : List BodySnapshot) :
    ∀ (st : RendererState) (e : ℕ × SceneMesh), e ∈ st.cache →
      e.1 ∉ bodies.map (fun b => b.id) →
      e ∈ (bodies.foldl syncBody st).cache := by
  induction bodies with
  | nil => intro st e he _; exact he
  | cons b bs ih =>
    intro st e he hne
    rw [List.map_cons, List.mem_cons, not_or] at hne
    exact ih (syncBody st b) e
      (syncBody_preserves_other st b e he hne.1) hne.2

theorem foldl_syncBody_stale_mem (bodies : List BodySnapshot) :
    ∀ (st : RendererState) (e : ℕ × SceneMesh),
      e ∈ (bodies.foldl syncBody st).cache →
      e.1 ∉ bodies.map (fun b => b.id) → e ∈ st.cache := by
  induction bodies with
  | nil => intro st e he _; exact he
  | cons b bs ih =>
    intro st e he hne
    rw [List.map_cons, List.mem_cons, not_or] at hne
    exact syncBody_mem_of_ne st b e (ih (syncBody st b) e he hne.2) hne.1

theorem foldl_syncBody_nextMeshId_le (bodies : List BodySnapshot) :
    ∀ st : RendererState,
      st.nextMeshId ≤ (bodies.foldl syncBody st).nextMeshId := by
  induction bodies with
  | nil => intro st; exact le_refl _
  | cons b bs ih =>
    intro st
    exact le_trans (syncBody_nextMeshId_le st b) (ih (syncBody st b))

theorem foldl_syncBody_scene_mem (bodies : List BodySnapshot) :
    ∀ (st : RendererState) (x : ℕ), x ∈ st.scene →
      x ∈ (bodies.foldl syncBody st).scene := by
  induction bodies with
  | nil => intro st x hx; exact hx
  | cons b bs ih =>
    intro st x hx
    exact ih (syncBody st b) x (syncBody_scene_mem st b x hx)

theorem foldl_syncBody_wf (bodies : List BodySnapshot) :
    ∀ st : RendererState, RendererWF st →
      RendererWF (bodies.foldl syncBody st) := by
  induction bodies with
  | nil => intro st h; exact h
  | cons b bs ih =>
    intro st h
    exact ih (syncBody st b) (syncBody_wf st b h)

theorem foldl_syncBody_keys_subset (bodies : List BodySnapshot) :
    ∀ st : RendererState,
      cacheKeys (bodies.foldl syncBody st).cache ⊆
        cacheKeys st.cache ++ bodies.map (fun b => b.id) := by
  induction bodies with
  | nil => intro st k hk; simpa using hk
  | cons b bs ih =>
    intro st k hk
    have h1 := ih (syncBody st b) hk
    rcases List.mem_append.mp h1 with h | h
    · have h2 := syncBody_keys_subset st b h
      rcases List.mem_append.mp h2 with h3 | h3
      · exact List.mem_append_left _ h3
      · rw [List.mem_singleton.mp h3]
        exact List.mem_append_right _ (by simp)
    · exact List.mem_append_right _ (by simp [h])

/-- A newly appearing, buildable body gets a fresh mesh during the first
pass: afterwards its entry is in the cache and its mesh is in the scene,
with a resource id at least the old fresh counter. -/
theorem foldl_syncBody_creates (bodies : List BodySnapshot) :
    ∀ (st : RendererState) (b : BodySnapshot), b ∈ bodies →
      (bodies.map (fun x => x.id)).Nodup →
      cacheGet st.cache b.id = none → buildable b = true →
      ∃ m : SceneMesh, (b.id, m) ∈ (bodies.foldl syncBody st).cache ∧
        m.mid ∈ (bodies.foldl syncBody st).scene ∧
        st.nextMeshId ≤ m.mid := by
  induction bodies with
  | nil => intro st b hb; exact absurd hb (List.not_mem_nil b)
  | cons b0 bs ih =>
    intro st b hb hnd hget hbuild
    rw [List.map_cons, List.nodup_cons] at hnd
    rcases List.mem_cons.mp hb with rfl | hb
    · obtain ⟨t, hcr⟩ :=
        createMeshForBody_of_buildable st.nextMeshId b hbuild
      have hstep : (syncBody st b).cache
            = st.cache ++ [(b.id,
                ⟨st.nextMeshId, tsMeshTransform b⟩)] ∧
          (syncBody st b).scene = st.scene ++ [st.nextMeshId] := by
        rw [syncBody, hget, hcr]
        exact ⟨rfl, rfl⟩
      refine ⟨⟨st.nextMeshId, tsMeshTransform b⟩, ?_, ?_, le_refl _⟩
      · refine foldl_syncBody_preserves_stale bs (syncBody st b) _ ?_ hnd.1
        rw [hstep.1]
        exact List.mem_append_right _ (List.mem_singleton_self _)
      · refine foldl_syncBody_scene_mem bs (syncBody st b) _ ?_
        rw [hstep.2]
        exact List.mem_append_right _ (List.mem_singleton_self _)
    · have hne : b.id ≠ b0.id := by
        intro h
        exact hnd.1 (h ▸ List.mem_map.mpr ⟨b, hb, rfl⟩)
      have hget' : cacheGet (syncBody st b0).cache b.id = none := by
        rw [cacheGet_none_iff]
        intro hk
        rcases List.mem_append.mp (syncBody_keys_subset st b0 hk) with h | h
        · exact (cacheGet_none_iff st.cache b.id).mp hget h
        · exact hne (List.mem_singleton.mp h)
      obtain ⟨m, h1, h2, h3⟩ := ih (syncBody st b0) b hb hnd.2 hget' hbuild
      exact ⟨m, h1, h2, le_trans (syncBody_nextMeshId_le st b0) h3⟩

theorem removeStaleEntry_scene_subset (ids : List ℕ) (st : RendererState)
    (e : ℕ × SceneMesh) : (removeStaleEntry ids st e).scene ⊆ st.scene := by
  rw [removeStaleEntry]
  split_ifs
  · exact fun x hx => hx
  · exact List.erase_subset _ _

theorem removeStaleEntry_cache_subset (ids : List ℕ) (st : RendererState)
    (e : ℕ × SceneMesh) : (removeStaleEntry ids st e).cache ⊆ st.cache := by
  rw [removeStaleEntry]
  split_ifs
  · exact fun x hx => hx
  · exact List.filter_subset' _

theorem removeStaleEntry_disposed_mono (ids : List ℕ) (st : RendererState)
    (e : ℕ × SceneMesh) (x : ℕ) (hx : x ∈ st.disposed) :
    x ∈ (removeStaleEntry ids st e).disposed := by
  rw [removeStaleEntry]
  split_ifs
  · exact hx
  · exact List.mem_append_left _ hx

theorem removeStaleEntry_scene_nodup (ids : List ℕ) (st : RendererState)
    (e : ℕ × SceneMesh) (h : st.scene.Nodup) :
    (removeStaleEntry ids st e).scene.Nodup := by
  rw [removeStaleEntry]
  split_ifs
  · exact h
  · exact h.erase _

theorem foldl_removeStale_scene_subset (ids : List ℕ)
    (L : List (ℕ × SceneMesh)) :
    ∀ st : RendererState,
      (L.foldl (removeStaleEntry ids) st).scene ⊆ st.scene := by
  induction L with
  | nil => intro st x hx; exact hx
  | cons e L ih =>
    intro st x hx
    exact removeStaleEntry_scene_subset ids st e (ih _ hx)

theorem foldl_removeStale_cache_subset (ids : List ℕ)
    (L : List (ℕ × SceneMesh)) :
    ∀ st : RendererState,
      (L.foldl (removeStaleEntry ids) st).cache ⊆ st.cache := by
  induction L with
  | nil => intro st x hx; exact hx
  | cons e L ih =>
    intro st x hx
    exact removeStaleEntry_cache_subset ids st e (ih _ hx)

theorem foldl_removeStale_disposed_mono (ids : List ℕ)
    (L : List (ℕ × SceneMesh)) :
    ∀ (st : RendererState) (x : ℕ), x ∈ st.disposed →
      x ∈ (L.foldl (removeStaleEntry ids) st).disposed := by
  induction L with
  | nil => intro st x hx; exact hx
  | cons e L ih =>
    intro st x hx
    exact ih _ x (removeStaleEntry_disposed_mono ids st e x hx)

/-- The second pass of `updateScene` fully processes every stale entry of
the iterated snapshot: its mesh leaves the scene, its resources are
disposed, and its key leaves the cache. -/
theorem foldl_removeStale_processes (ids : List ℕ) :
    ∀ (L : List (ℕ × SceneMesh)) (st : RendererState) (e : ℕ × SceneMesh),
      e ∈ L → e.1 ∉ ids → st.scene.Nodup →
      e.2.mid ∉ (L.foldl (removeStaleEntry ids) st).scene ∧
        e.2.mid ∈ (L.foldl (removeStaleEntry ids) st).disposed ∧
        ∀ m' : SceneMesh,
          (e.1, m') ∉ (L.foldl (removeStaleEntry ids) st).cache := by
  intro L
  induction L with
  | nil => intro st e he; exact absurd he (List.not_mem_nil e)
  | cons e0 L ih =>
    intro st e he hne hnd
    rcases List.mem_cons.mp he with rfl | he
    · have hstep : removeStaleEntry ids st e
          = { st with
              scene := st.scene.erase e.2.mid,
              disposed := st.disposed ++ [e.2.mid],
              cache := st.cache.filter fun e2 => e2.1 != e.1 } := by
        rw [removeStaleEntry, if_neg hne]
      refine ⟨?_, ?_, ?_⟩
      · intro hmem
        have h1 := foldl_removeStale_scene_subset ids L _ hmem
        rw [hstep] at h1
        exact hnd.not_mem_erase h1
      · refine foldl_removeStale_disposed_mono ids L _ _ ?_
        rw [hstep]
        exact List.mem_append_right _ (List.mem_singleton_self _)
      · intro m' hmem
        have h1 := foldl_removeStale_cache_subset ids L _ hmem
        rw [hstep] at h1
        have h2 := List.of_mem_filter h1
        simp at h2
    · exact ih _ e he hne (removeStaleEntry_scene_nodup ids st e0 hnd)

theorem foldl_removeStale_keeps_cache (ids : List ℕ)
    (L : List (ℕ × SceneMesh)) :
    ∀ (st : RendererState) (k : ℕ) (m : SceneMesh),
      (k, m) ∈ st.cache → k ∈ ids →
      (k, m) ∈ (L.foldl (removeStaleEntry ids) st).cache := by
  induction L with
  | nil => intro st k m hm _; exact hm
  | cons e0 L ih =>
    intro st k m hm hk
    refine ih _ k m ?_ hk
    rw [removeStaleEntry]
    split_ifs with h0
    · exact hm
    · refine List.mem_filter.mpr ⟨hm, ?_⟩
      simp only [bne_iff_ne, ne_eq, decide_eq_true_eq]
      intro hkk
      exact h0 (hkk ▸ hk)

theorem foldl_removeStale_keeps_scene (ids : List ℕ)
    (L : List (ℕ × SceneMesh)) :
    ∀ (st : RendererState) (x : ℕ), x ∈ st.scene →
      (∀ e ∈ L, e.1 ∉ ids → e.2.mid ≠ x) →
      x ∈ (L.foldl (removeStaleEntry ids) st).scene := by
  induction L with
  | nil => intro st x hx _; exact hx
  | cons e0 L ih =>
    intro st x hx hfar
    refine ih _ x ?_ fun e he hne => hfar e (List.mem_cons_of_mem _ he) hne
    rw [removeStaleEntry]
    split_ifs with h0
    · exact hx
    · exact (List.mem_erase_of_ne
        (fun h => hfar e0 (List.mem_cons_self _ _) h0 h.symm)).mpr hx

/-- Claim C6: a single `updateScene` call handles additions and removals
simultaneously.  Every newly appeared body (id absent from the cache
before the call) with a buildable shape ends with a mesh in the cache
and in the scene; every cache entry whose body id is absent from the
current enumeration has its mesh removed from the scene, its resources
disposed, and its entry deleted from the cache. -/
theorem updateScene_sync_adds_and_removes (bodies : List BodySnapshot)
    (st : RendererState) (hwf : RendererWF st)
    (hnd : (bodies.map fun b => b.id).Nodup) :
    (∀ b ∈ bodies, buildable b = true → cacheGet st.cache b.id = none →
      ∃ m : SceneMesh, (b.id, m) ∈ (updateScene bodies st).cache ∧
        m.mid ∈ (updateScene bodies st).scene) ∧
      ∀ e ∈ st.cache, e.1 ∉ bodies.map (fun b => b.id) →
        e.2.mid ∉ (updateScene bodies st).scene ∧
          e.2.mid ∈ (updateScene bodies st).disposed ∧
          ∀ m' : SceneMesh, (e.1, m') ∉ (updateScene bodies st).cache := by
  have hwf1 := foldl_syncBody_wf bodies st hwf
  simp only [updateScene]
  constructor
  · intro b hb hbuild hget
    obtain ⟨m, h1, h2, h3⟩ :=
      foldl_syncBody_creates bodies st b hb hnd hget hbuild
    refine ⟨m, ?_, ?_⟩
    · exact foldl_removeStale_keeps_cache _ _ _ _ m h1
        (List.mem_map.mpr ⟨b, hb, rfl⟩)
    · refine foldl_removeStale_keeps_scene _ _ _ _ h2 ?_
      intro e he hne
      have he0 := foldl_syncBody_stale_mem bodies st e he hne
      have hlt := hwf.2.2.1 e he0
      omega
  · intro e he hne
    have he1 := foldl_syncBody_preserves_stale bodies st e he hne
    exact foldl_removeStale_processes _ _ _ e he1 hne hwf1.2.1

/-- The concrete pre-call state for claim C6's witness: one cached mesh
(resource id `0`) for the vanished body `5`, a scene holding it, and the
fresh counter at `1`. -/
def meshC6 : SceneMesh :=
  ⟨0, { posX := 0, posY := 0, posZ := 0, rotZ := 0 }⟩

def stC6 : RendererState :=
  { cache := [(5, meshC6)], scene := [0], nextMeshId := 1, disposed := [] }

/-- The newly appearing circle body for claim C6's witness. -/
def bodyC6 : BodySnapshot :=
  { id := 7, px := 1, py := 2, angle := 3, circleRadius := some 4,
    vertices := [] }

/-- Claim C6 witness: syncing the single-body enumeration `[bodyC6]`
against the state caching only the vanished body `5` adds a mesh for
body `7` and removes, disposes and uncaches the mesh of body `5`. -/
theorem updateScene_sync_adds_and_removes_witness :
    (∃ m : SceneMesh, (7, m) ∈ (updateScene [bodyC6] stC6).cache ∧
      m.mid ∈ (updateScene [bodyC6] stC6).scene) ∧
      0 ∉ (updateScene [bodyC6] stC6).scene ∧
      0 ∈ (updateScene [bodyC6] stC6).disposed ∧
      ∀ m' : SceneMesh, (5, m') ∉ (updateScene [bodyC6] stC6).cache := by
  have h := updateScene_sync_adds_and_removes [bodyC6] stC6
    ⟨by decide, by decide, by decide, by decide⟩ (by decide)
  have h1 := h.1 bodyC6 (List.mem_singleton_self _) (by decide) (by decide)
  have h2 := h.2 (5, meshC6) (by decide) (by decide)
  exact ⟨h1, h2.1, h2.2.1, h2.2.2⟩

/-- A drag constraint as created by the `mousedown` handler
(`src/ts/interactive-world.ts`, lines 216-225): a fresh identity (the
Matter.js constraint object), the constrained body, the grab offset
`pointA`, the target `pointB`, and the stiffness `0.2`. -/
structure DragConstraint where
  cid : ℕ
  bodyId : ℕ
  pointAx : ℚ
  pointAy : ℚ
  pointBx : ℚ
  pointBy : ℚ
  stiffness : ℚ
deriving DecidableEq

/-- An interactive object as seen by the drag handlers: identity, its
body, the body's current position, and the draggable flag. -/
structure DragObject where
  oid : String
  bodyId : ℕ
  posX : ℚ
  posY : ℚ
  isDraggable : Bool
deriving DecidableEq

/-- Drag state of the interaction bridge
(`src/ts/interactive-world.ts`): the `isDragging` flag, the tracked
`dragConstraint`, the constraints currently added to the physics world
(by identity), and the supply of fresh constraint identities. -/
structure DragState where
  isDragging : Bool
  dragConstraint : Option DragConstraint
  worldConstraints : List ℕ
  nextCid : ℕ
deriving DecidableEq

/-- Initial drag state: `Idle`, no constraint anywhere. -/
def initialDragState : DragState :=
  { isDragging := false, dragConstraint := none, worldConstraints := [],
    nextCid := 0 }

/-- The `mousedown` handler (`src/ts/interactive-world.ts`, lines
202-228).  `queryPoint` models the external `Matter.Query.point` hit
test.  The handler filters the draggable objects to those hit, takes the
topmost (last in the array), sets `isDragging`, creates a constraint
anchored at the grab offset with stiffness `0.2`, overwrites
`dragConstraint` with it, and adds the new constraint to the world.
Note the source has no `isDragging` guard before creating the
constraint. -/
def mousedown (queryPoint : DragObject → ℚ × ℚ → Bool)
    (objects : List DragObject) (pos : ℚ × ℚ) (s : DragState) :
    DragState :=
  let draggableBodies := objects.filter fun o => o.isDraggable
  let bodiesAtPoint := draggableBodies.filter fun o => queryPoint o pos
  match bodiesAtPoint.getLast? with
  | some topmostBody =>
    { isDragging := true,
      dragConstraint := some
        { cid := s.nextCid, bodyId := topmostBody.bodyId,
          pointAx := pos.1 - topmostBody.posX,
          pointAy := pos.2 - topmostBody.posY,
          pointBx := pos.1, pointBy := pos.2, stiffness := 1 / 5 },
      worldConstraints := s.worldConstraints ++ [s.nextCid],
      nextCid := s.nextCid + 1 }
  | none => s

/-- The `mousemove` handler (lines 230-235): while dragging, updates the
tracked constraint's target point; otherwise does nothing. -/
def mousemove (pos : ℚ × ℚ) (s : DragState) : DragState :=
  if s.isDragging = false ∨ s.dragConstraint = none then s
  else
    { s with dragConstraint := s.dragConstraint.map fun c =>
        { c with pointBx := pos.1, pointBy := pos.2 } }

/-- The `mouseup` handler (lines 237-243): removes the tracked
constraint from the world and resets the drag state. -/
def mouseup (s : DragState) : DragState :=
  match s.dragConstraint with
  | some c =>
    { isDragging := false, dragConstraint := none,
      worldConstraints := s.worldConstraints.erase c.cid,
      nextCid := s.nextCid }
  | none => s

/-- A pointer event fed to the handlers. -/
inductive DragEvent
  | down (pos : ℚ × ℚ)
  | move (pos : ℚ × ℚ)
  | up
deriving DecidableEq

/-- Runs a sequence of pointer events through the three handlers. -/
def runDragEvents (queryPoint : DragObject → ℚ × ℚ → Bool)
    (objects : List DragObject) : List DragEvent → DragState → DragState
  | [], s => s
  | DragEvent.down pos :: evs, s =>
    runDragEvents queryPoint objects evs (mousedown queryPoint objects pos s)
  | DragEvent.move pos :: evs, s =>
    runDragEvents queryPoint objects evs (mousemove pos s)
  | DragEvent.up :: evs, s =>
    runDragEvents queryPoint objects evs (mouseup s)

/-- The draggable `main-block` of the shipped configuration, at the
canvas center. -/
def blockObj : DragObject :=
  { oid := "main-block", bodyId := 1, posX := 320, posY := 240,
    isDraggable := true }

/-- The drag state after one pointer-down over the block. -/
def dragS1 : DragState :=
  mousedown (fun _ _ => true) [blockObj] (320, 240) initialDragState

/-- The constraint created by that first pointer-down. -/
def dragC1 : DragConstraint :=
  { cid := 0, bodyId := 1, pointAx := 320 - 320, pointAy := 240 - 240,
    pointBx := 320, pointBy := 240, stiffness := 1 / 5 }

/-- Claim C3 counterexample: the `mousedown` handler never checks
`isDragging`, so a second pointer-down over a draggable body while a
drag is in progress creates a second constraint.  After the event
sequence `[down (320, 240), down (330, 240)]` over the draggable block
(both hits), the world holds two constraints (identities `0` and `1`) —
not at most one — and the second pointer-down did have an effect. -/
theorem drag_single_constraint_counterexample :
    dragS1.isDragging = true ∧
      dragS1.worldConstraints = [0] ∧
      (runDragEvents (fun _ _ => true) [blockObj]
        [DragEvent.down (320, 240), DragEvent.down (330, 240)]
        initialDragState).worldConstraints = [0, 1] := by
  refine ⟨rfl, rfl, rfl⟩

/-- Claim C3 amended: a pointer-down that hits no draggable body has no
effect, but a pointer-down over a draggable body while a drag is in
progress creates a new constraint and adds it to the world, repointing
the tracked reference to it: the previously tracked constraint stays in
the world, so more than one constraint can exist at once (the later
`mouseup` removes only the new one). -/
theorem drag_mousedown_while_dragging
    (queryPoint : DragObject → ℚ × ℚ → Bool) (objects : List DragObject)
    (pos : ℚ × ℚ) (s : DragState) (c : DragConstraint)
    (hdrag : s.isDragging = true) (hc : s.dragConstraint = some c)
    (hcc : c.cid < s.nextCid) :
    ((objects.filter fun o => o.isDraggable).filter
        (fun o => queryPoint o pos) = [] →
      mousedown queryPoint objects pos s = s) ∧
      ((objects.filter fun o => o.isDraggable).filter
          (fun o => queryPoint o pos) ≠ [] →
        (mousedown queryPoint objects pos s).worldConstraints
            = s.worldConstraints ++ [s.nextCid] ∧
          (mousedown queryPoint objects pos s).dragConstraint ≠ some c ∧
          (c.cid ∈ s.worldConstraints →
            c.cid ∈ (mousedown queryPoint objects pos s).worldConstraints)) := by
  constructor
  · intro hmiss
    rw [mousedown]
    rw [hmiss]
    rfl
  · intro hhit
    rcases hlast : ((objects.filter fun o => o.isDraggable).filter
        fun o => queryPoint o pos).getLast? with - | top
    · exact absurd (List.getLast?_eq_none_iff.mp hlast) hhit
    · rw [mousedown, hlast]
      refine ⟨rfl, ?_, fun hmem => List.mem_append_left _ hmem⟩
      intro heq
      have : c.cid = s.nextCid := by
        have h2 := (Option.some.injEq _ _).mp heq.symm
        rw [h2]
      exact absurd (this ▸ hcc) (lt_irrefl _)

/-- Claim C3 amended witness: the second pointer-down over the block
while `dragS1` is dragging adds constraint `1` to the world and replaces
the tracked constraint `0`, which remains in the world. -/
theorem drag_mousedown_while_dragging_witness :
    (mousedown (fun _ _ => true) [blockObj] (330, 240) dragS1).worldConstraints
        = dragS1.worldConstraints ++ [dragS1.nextCid] ∧
      (mousedown (fun _ _ => true) [blockObj] (330, 240)
          dragS1).dragConstraint ≠ some dragC1 ∧
      dragC1.cid ∈ (mousedown (fun _ _ => true) [blockObj] (330, 240)
        dragS1).worldConstraints := by
  have h := drag_mousedown_while_dragging (fun _ _ => true) [blockObj]
    (330, 240) dragS1 dragC1 rfl rfl (by decide)
  have h2 := h.2 (by decide)
  exact ⟨h2.1, h2.2.1, h2.2.2 (by decide)⟩

/-- An `InteractiveBlock` (`src/ts/interactive-block.ts`) as the world
manager sees it: its string identity, its Matter.js body (by identity),
and the `isAddedToWorld` flag.  The body-geometry fields (shape, size,
colors, masses) play no role in identity bookkeeping and are not
tracked. -/
structure WorldBlock where
  id : String
  bodyId : ℕ
  isAddedToWorld : Bool
deriving DecidableEq

/-- State of `InteractiveWorld` (`src/ts/interactive-world.ts`): the
`objects` map (association list in insertion order, as a JS `Map`), the
bodies currently in the physics world, the id counter used by `create`,
and the supply of fresh Matter.js body identities. -/
structure WorldState where
  objects : List (String × WorldBlock)
  world : List ℕ
  idCounter : ℕ
  nextBodyId : ℕ
deriving DecidableEq

/-- The lookup `this.objects.get(id)`. -/
def objGet : List (String × WorldBlock) → String → Option WorldBlock
  | [], _ => none
  | (k, b) :: rest, i => if k = i then some b else objGet rest i

/-- `InteractiveBlock.removeFromWorld` (`src/ts/interactive-block.ts`,
lines 112-119): removes the body from the world when the block is
currently added. -/
def removeFromWorld (world : List ℕ) (b : WorldBlock) : List ℕ :=
  if b.isAddedToWorld then world.erase b.bodyId else world

/-- `InteractiveWorld.remove` (`src/ts/interactive-world.ts`, lines
124-132): when the identity is found, removes the object's body from the
world and deletes the map entry, returning `true`; otherwise returns
`false` without changes. -/
def removeObj (s : WorldState) (i : String) : WorldState × Bool :=
  match objGet s.objects i with
  | some object =>
    ({ s with
        world := removeFromWorld s.world object,
        objects := s.objects.filter fun e => e.1 != i }, true)
  | none => (s, false)

/-- `InteractiveBlock.addToWorld` (`src/ts/interactive-block.ts`, lines
98-105): adds the body to the world and sets the flag, unless already
added. -/
def addToWorld (world : List ℕ) (b : WorldBlock) : List ℕ × WorldBlock :=
  if b.isAddedToWorld = false then
    (world ++ [b.bodyId], { b with isAddedToWorld := true })
  else (world, b)

/-- `InteractiveWorld.add` (`src/ts/interactive-world.ts`, lines 59-71):
when an object with this identity already exists, it is first removed
(with a warning); then the new object is stored in the map and its body
is added to the physics world. -/
def addObj (s : WorldState) (object : WorldBlock) : WorldState :=
  let s1 := match objGet s.objects object.id with
    | some _ => (removeObj s object.id).1
    | none => s
  let wb := addToWorld s1.world object
  { s1 with objects := s1.objects ++ [(object.id, wb.2)], world := wb.1 }

/-- The configuration fields of `InteractiveWorld.create` that matter to
identity bookkeeping; `id = ""` models a missing (falsy) id. -/
structure ObjectConfig where
  id : String
  x : ℚ
  y : ℚ
  isStatic : Bool
  isDraggable : Bool
deriving DecidableEq

/-- The id defaulting and block construction of `InteractiveWorld.create`
(`src/ts/interactive-world.ts`, lines 79-114): a missing id becomes
`interactive-<counter>` with the counter incremented; the block is built
with a fresh Matter.js body, not yet added to the world. -/
def createPrep (s : WorldState) (config : ObjectConfig) :
    WorldState × WorldBlock :=
  let cid := if config.id = "" then
      "interactive-" ++ toString (s.idCounter + 1)
    else config.id
  ({ s with
      idCounter := if config.id = "" then s.idCounter + 1 else s.idCounter,
      nextBodyId := s.nextBodyId + 1 },
   { id := cid, bodyId := s.nextBodyId, isAddedToWorld := false })

/-- `InteractiveWorld.create` (line 115): `return this.add(object)` —
create delegates to add. -/
def createObj (s : WorldState) (config : ObjectConfig) : WorldState :=
  addObj (createPrep s config).1 (createPrep s config).2

/-- Well-formedness of the world-manager state: distinct identities,
every stored object is added to the world, and each stored body occurs
in the world at most once. -/
def WorldWF (s : WorldState) : Prop :=
  (s.objects.map fun e => e.1).Nodup ∧
    (∀ e ∈ s.objects, e.2.isAddedToWorld = true) ∧
    ∀ e ∈ s.objects, s.world.count e.2.bodyId ≤ 1

theorem objGet_mem (l : List (String × WorldBlock)) (i : String)
    (b : WorldBlock) (h : objGet l i = some b) : (i, b) ∈ l := by
  induction l with
  | nil => exact absurd h (by rw [objGet]; exact Option.noConfusion)
  | cons e rest ih =>
    rcases e with ⟨k, b0⟩
    by_cases hk : k = i
    · subst hk
      rw [objGet, if_pos rfl] at h
      rw [(Option.some.injEq _ _).mp h]
      exact List.mem_cons_self _ _
    · rw [objGet, if_neg hk] at h
      exact List.mem_cons_of_mem _ (ih h)

theorem objGet_filter_ne (l : List (String × WorldBlock)) (i : String) :
    objGet (l.filter fun e => e.1 != i) i = none := by
  induction l with
  | nil => rfl
  | cons e rest ih =>
    rcases e with ⟨k, b0⟩
    by_cases hk : k = i
    · subst hk
      rw [List.filter_cons, if_neg (by simp)]
      exact ih
    · rw [List.filter_cons]
      rw [if_pos (by simpa using hk)]
      rw [objGet, if_neg hk]
      exact ih

theorem objGet_append_of_none (l1 l2 : List (String × WorldBlock))
    (i : String) (h : objGet l1 i = none) :
    objGet (l1 ++ l2) i = objGet l2 i := by
  induction l1 with
  | nil => rfl
  | cons e rest ih =>
    rcases e with ⟨k, b0⟩
    by_cases hk : k = i
    · subst hk
      rw [objGet, if_pos rfl] at h
      exact Option.noConfusion h
    · rw [objGet, if_neg hk] at h
      rw [List.cons_append, objGet, if_neg hk]
      exact ih h

/-- Claim C8: adding an object whose identity is already stored first
removes the existing object — its body leaves the physics world — and
then stores the new object, so afterwards exactly one object carries
that identity, the new one, and its body is in the world.  `create`
delegates to `add` by definition. -/
theorem add_replaces_duplicate_identity (s : WorldState)
    (object old : WorldBlock) (hwf : WorldWF s)
    (hold : objGet s.objects object.id = some old)
    (hnew : object.isAddedToWorld = false)
    (hbody : object.bodyId ≠ old.bodyId) :
    objGet (addObj s object).objects object.id
        = some { object with isAddedToWorld := true } ∧
      ((addObj s object).objects.filter
        fun e => e.1 == object.id).length = 1 ∧
      old.bodyId ∉ (addObj s object).world ∧
      object.bodyId ∈ (addObj s object).world ∧
      ∀ (t : WorldState) (config : ObjectConfig),
        createObj t config = addObj (createPrep t config).1
          (createPrep t config).2 := by
  have holdmem := objGet_mem s.objects object.id old hold
  have holdadded : old.isAddedToWorld = true := hwf.2.1 _ holdmem
  have hrfw : removeFromWorld s.world old = s.world.erase old.bodyId := by
    rw [removeFromWorld, if_pos holdadded]
  have haddw : addToWorld (s.world.erase old.bodyId) object
      = (s.world.erase old.bodyId ++ [object.bodyId],
         { object with isAddedToWorld := true }) := by
    rw [addToWorld, if_pos hnew]
  have hstate : addObj s object
      = { objects := (s.objects.filter fun e => e.1 != object.id)
            ++ [(object.id, { object with isAddedToWorld := true })],
          world := (s.world.erase old.bodyId) ++ [object.bodyId],
          idCounter := s.idCounter,
          nextBodyId := s.nextBodyId } := by
    simp only [addObj, removeObj, hold, hrfw, haddw]
  rw [hstate]
  refine ⟨?_, ?_, ?_, ?_, fun t config => rfl⟩
  · rw [objGet_append_of_none _ _ _ (objGet_filter_ne s.objects object.id)]
    rw [objGet, if_pos rfl]
  · rw [List.filter_append]
    rw [List.length_append]
    have h1 : ((s.objects.filter fun e => e.1 != object.id).filter
        fun e => e.1 == object.id) = [] := by
      rw [List.filter_eq_nil_iff]
      intro e he
      have h2 := List.of_mem_filter he
      simp only [bne_iff_ne, ne_eq, decide_eq_true_eq] at h2 ⊢
      simpa using h2
    rw [h1]
    simp
  · intro hmem
    rcases List.mem_append.mp hmem with h | h
    · have hcount : s.world.count old.bodyId ≤ 1 := hwf.2.2 _ holdmem
      have hcself := List.count_erase_self old.bodyId s.world
      have hpos : 0 < (s.world.erase old.bodyId).count old.bodyId :=
        List.count_pos_iff.mpr h
      omega
    · exact hbody (List.mem_singleton.mp h).symm
  · exact List.mem_append_right _ (List.mem_singleton_self _)

/-- Claim C8 witness: a concrete replace.  The state stores `"blk"` with
body `10`; adding a new `"blk"` block with fresh body `11` removes body
`10` from the world, stores exactly one `"blk"` object — the new one,
flagged as added — and puts body `11` into the world. -/
theorem add_replaces_duplicate_identity_witness :
    objGet (addObj
        { objects := [("blk", ⟨"blk", 10, true⟩)], world := [10],
          idCounter := 0, nextBodyId := 12 }
        ⟨"blk", 11, false⟩).objects "blk" = some ⟨"blk", 11, true⟩ ∧
      ((addObj
        { objects := [("blk", ⟨"blk", 10, true⟩)], world := [10],
          idCounter := 0, nextBodyId := 12 }
        ⟨"blk", 11, false⟩).objects.filter
          fun e => e.1 == "blk").length = 1 ∧
      10 ∉ (addObj
        { objects := [("blk", ⟨"blk", 10, true⟩)], world := [10],
          idCounter := 0, nextBodyId := 12 }
        ⟨"blk", 11, false⟩).world ∧
      11 ∈ (addObj
        { objects := [("blk", ⟨"blk", 10, true⟩)], world := [10],
          idCounter := 0, nextBodyId := 12 }
        ⟨"blk", 11, false⟩).world := by
  have h := add_replaces_duplicate_identity
    { objects := [("blk", ⟨"blk", 10, true⟩)], world := [10],
      idCounter := 0, nextBodyId := 12 }
    ⟨"blk", 11, false⟩ ⟨"blk", 10, true⟩
    ⟨by decide, by decide, by decide⟩ (by decide) (by decide) (by decide)
  exact ⟨h.1, h.2.1, h.2.2.1, h.2.2.2.1⟩

/-- The two rendering back-ends of `Constants.RENDERER`
(`src/ts/constants.ts`): `"2d"` and `"webgl"`. -/
inductive RendererKind
  | canvas2d
  | webgl
deriving DecidableEq

/-- The back-end the catch block of `initializeRenderer` falls back to. -/
def otherRendererKind : RendererKind → RendererKind
  | RendererKind.canvas2d => RendererKind.webgl
  | RendererKind.webgl => RendererKind.canvas2d

/-- One call of `initializeRenderer` (`src/ts/app.ts`, lines 135-176),
given which back-ends fail to initialize in this environment
(`fails`): on success the call returns with no further call; on failure
the catch block immediately calls `initializeRenderer` again on the
other back-end.  Returns the argument of that recursive call, if any. -/
def initStep (fails : RendererKind → Bool) (r : RendererKind) :
    Option RendererKind :=
  if fails r then some (otherRendererKind r) else none

/-- The back-end attempted by the `n`-th recursive call of
`initializeRenderer`, starting from the requested back-end at depth 0;
`none` once initialization has stopped. -/
def initAttempt (fails : RendererKind → Bool) (r : RendererKind) :
    ℕ → Option RendererKind
  | 0 => some r
  | n + 1 =>
    match initAttempt fails r n with
    | some r' => initStep fails r'
    | none => none

/-- Claim C9 counterexample: when both back-ends fail, the third and
fourth calls still happen — `initializeRenderer` keeps alternating
(webGL, 2D, webGL, 2D, ...) with no attempt limit, instead of stopping
after the single fallback, and nothing ever surfaces a user-visible
message (the catch blocks only `console.error`). -/
theorem initializeRenderer_single_fallback_counterexample :
    initAttempt (fun _ => true) RendererKind.webgl 2
        = some RendererKind.webgl ∧
      initAttempt (fun _ => true) RendererKind.webgl 3
        = some RendererKind.canvas2d := by
  exact ⟨rfl, rfl⟩

/-- Claim C9 amended: when the requested back-end initializes, there is
no fallback call; when it fails and the other succeeds, exactly one
fallback call happens and initialization stops; but when both back-ends
fail, the calls alternate between the two back-ends indefinitely — there
is no limit of one fallback, and the failure is only logged to the
console, never surfaced as a user-visible message. -/
theorem initializeRenderer_fallback_behavior
    (fails : RendererKind → Bool) (r : RendererKind) :
    (fails r = false → ∀ n, 1 ≤ n → initAttempt fails r n = none) ∧
      (fails r = true → fails (otherRendererKind r) = false →
        initAttempt fails r 1 = some (otherRendererKind r) ∧
          ∀ n, 2 ≤ n → initAttempt fails r n = none) ∧
      ((∀ k, fails k = true) → ∀ n,
        initAttempt fails r n
          = some (if n % 2 = 0 then r else otherRendererKind r)) := by
  have hoo : otherRendererKind (otherRendererKind r) = r := by
    cases r <;> rfl
  have hstop : ∀ (m : ℕ), initAttempt fails r m = none →
      ∀ n, m ≤ n → initAttempt fails r n = none := by
    intro m hm n hn
    induction n with
    | zero =>
      have h0 : m = 0 := Nat.le_zero.mp hn
      exact h0 ▸ hm
    | succ n ih =>
      by_cases h : m ≤ n
      · rw [initAttempt, ih h]
      · have h1 : m = n + 1 := by omega
        exact h1 ▸ hm
  refine ⟨?_, ?_, ?_⟩
  · intro hok n hn
    refine hstop 1 ?_ n hn
    simp [initAttempt, initStep, hok]
  · intro hfail hok
    have h1 : initAttempt fails r 1 = some (otherRendererKind r) := by
      simp [initAttempt, initStep, hfail]
    refine ⟨h1, ?_⟩
    refine hstop 2 ?_
    have h2 : initAttempt fails r 2
        = match initAttempt fails r 1 with
          | some r' => initStep fails r'
          | none => none := rfl
    rw [h2, h1]
    simp [initStep, hok]
  · intro hall n
    induction n with
    | zero => rfl
    | succ n ih =>
      rcases Nat.even_or_odd n with he | ho
      · have hm : n % 2 = 0 := Nat.even_iff.mp he
        have hm1 : (n + 1) % 2 = 1 := by omega
        rw [initAttempt, ih]
        simp [hm, hm1, initStep, hall]
      · have hm : n % 2 = 1 := Nat.odd_iff.mp ho
        have hm1 : (n + 1) % 2 = 0 := by omega
        rw [initAttempt, ih]
        simp [hm, hm1, initStep, hall, hoo]

/-- The failure environment of claim C9's witness: 2D initialization
fails, WebGL succeeds. -/
def failsOnly2D : RendererKind → Bool
  | RendererKind.canvas2d => true
  | RendererKind.webgl => false

/-- Claim C9 amended witness: requesting the 2D back-end when only it
fails produces exactly one fallback call (to WebGL) and then stops;
requesting WebGL produces no fallback at all. -/
theorem initializeRenderer_fallback_behavior_witness :
    initAttempt failsOnly2D RendererKind.canvas2d 1
        = some RendererKind.webgl ∧
      initAttempt failsOnly2D RendererKind.canvas2d 2 = none ∧
      initAttempt failsOnly2D RendererKind.webgl 1 = none := by
  have h2d := initializeRenderer_fallback_behavior failsOnly2D
    RendererKind.canvas2d
  have hgl := initializeRenderer_fallback_behavior failsOnly2D
    RendererKind.webgl
  have h := h2d.2.1 rfl rfl
  exact ⟨h.1, h.2 2 (le_refl 2), hgl.1 rfl 1 (le_refl 1)⟩

/-- `getMouseCoordinates` of the WebGL renderer
(`src/ts/renderer-webgl.ts`, lines 391-404): canvas-relative conversion
followed by clamping into `[0, width] × [0, height]`. -/
def getMouseCoordinates (canvasWidth canvasHeight : ℚ)
    (rectLeft rectTop clientX clientY : ℚ) : ℚ × ℚ :=
  (max 0 (min canvasWidth (clientX - rectLeft)),
   max 0 (min canvasHeight (clientY - rectTop)))

/-- The default canvas-relative conversion used when the 2D renderer is
active (`src/ts/interactive-world.ts`, lines 183-188): no clamping. -/
def getMousePositionDefault (rectLeft rectTop clientX clientY : ℚ) :
    ℚ × ℚ :=
  (clientX - rectLeft, clientY - rectTop)

/-- Claim C10: for every input, the WebGL conversion lands inside the
canvas bounds (given nonnegative canvas dimensions), so a WebGL-mode
drag target can never lie outside the canvas — unlike the unclamped 2D
conversion, which can produce out-of-bounds coordinates. -/
theorem getMouseCoordinates_clamped (canvasWidth canvasHeight : ℚ)
    (rectLeft rectTop clientX clientY : ℚ)
    (hw : 0 ≤ canvasWidth) (hh : 0 ≤ canvasHeight) :
    (0 ≤ (getMouseCoordinates canvasWidth canvasHeight rectLeft rectTop
        clientX clientY).1 ∧
      (getMouseCoordinates canvasWidth canvasHeight rectLeft rectTop
        clientX clientY).1 ≤ canvasWidth ∧
      0 ≤ (getMouseCoordinates canvasWidth canvasHeight rectLeft rectTop
        clientX clientY).2 ∧
      (getMouseCoordinates canvasWidth canvasHeight rectLeft rectTop
        clientX clientY).2 ≤ canvasHeight) ∧
      ∃ rl rt cx cy : ℚ, (getMousePositionDefault rl rt cx cy).1 < 0 := by
  refine ⟨⟨le_max_left _ _, ?_, le_max_left _ _, ?_⟩, 0, 0, -1, 0, ?_⟩
  · exact max_le hw (min_le_left _ _)
  · exact max_le hh (min_le_left _ _)
  · rw [getMousePositionDefault]
    norm_num

/-- Claim C10 witness: a pointer far right of and above the `640 × 480`
canvas clamps into bounds, while the 2D-mode conversion can go
negative. -/
theorem getMouseCoordinates_clamped_witness :
    (0 ≤ (getMouseCoordinates 640 480 0 0 10000 (-5)).1 ∧
      (getMouseCoordinates 640 480 0 0 10000 (-5)).1 ≤ 640 ∧
      0 ≤ (getMouseCoordinates 640 480 0 0 10000 (-5)).2 ∧
      (getMouseCoordinates 640 480 0 0 10000 (-5)).2 ≤ 480) ∧
      ∃ rl rt cx cy : ℚ, (getMousePositionDefault rl rt cx cy).1 < 0 :=
  getMouseCoordinates_clamped 640 480 0 0 10000 (-5)
    (by norm_num) (by norm_num)

end EffectivePhysics
